import Mathlib

/-!
Shallow embedding of the `withHistory` reducer enhancer of the repository
(src/editor/utils/with-history/index.js, both the buffered and the
merged-present variant) and of the history selectors
(src/editor/store/selectors.js), together with proofs of the frozen claims
about them.

Modelling conventions:
* `DocumentState` is opaque to the engine and only ever compared by JS
  reference identity.  We model it as an arbitrary type `σ` with decidable
  equality, where Lean equality on `σ` stands for JS reference identity
  (each distinct JS object is a distinct `σ` value; the base reducer's
  contract — same reference iff no change — becomes plain equality).
* JS actions are `{ type: string, ...payload }`; the wrapper only reads
  `action.type` and forwards the whole action to the base reducer, so an
  action is a `type` string plus an opaque payload of type `π`.
* Reference identity of the returned HistoryState object itself: every
  branch of the JS reducer either executes `return state;` (returning the
  very object it was given) or returns a freshly allocated object literal,
  which is reference-distinct from every previously existing object.  The
  step function therefore returns the structural state paired with a
  Boolean that is `true` exactly on the `return state;` branches; the
  result of a chain of dispatches is reference-identical to the original
  input object iff every step in the chain returned `true`.
* `past[past.length - 1]` on a JS array: when the array is empty this reads
  `undefined`.  Branch conditions compare it with a (defined) DocumentState,
  so `past.getLast? ≠ some present` renders `past[past.length-1] !== present`
  faithfully, including the empty case.  Where the element itself is used as
  a value the surrounding guard ensures the array is long enough (and states
  with empty `past` are unreachable in the merged design, see the invariant
  theorems), so `List.getLastD` with an arbitrary fallback is faithful there.
-/

namespace Gutenberg

/-- A dispatched action: a `type` string plus an opaque payload (the wrapper
itself only inspects `type`; the payload is only seen by the base reducer). -/
structure Action (π : Type) where
  type : String
  payload : π
deriving DecidableEq

/-- History state of the merged-present variant: `{ past, present, future }`. -/
structure HState (σ : Type) where
  past : List σ
  present : σ
  future : List σ
deriving DecidableEq

/-- History state of the buffered variant: `{ past, present, buffer, future }`. -/
structure BState (σ : Type) where
  past : List σ
  present : σ
  buffer : σ
  future : List σ
deriving DecidableEq

/-- Initial state of the merged-present variant: the JS code computes
`initialPresent = reducer(undefined, {})` once and seeds
`{ past: [initialPresent], present: initialPresent, future: [] }`.
`initialPresent` is passed in as a parameter (the base reducer's result
for an undefined state). -/
def initialState {σ : Type} (initialPresent : σ) : HState σ :=
  ⟨[initialPresent], initialPresent, []⟩

/-- Initial state of the buffered variant:
`{ past: [], present: reducer(undefined,{}), buffer: reducer(undefined,{}), future: [] }`. -/
def initialBState {σ : Type} (initialPresent : σ) : BState σ :=
  ⟨[], initialPresent, initialPresent, []⟩

/-- One dispatch of the merged-present `withHistory` reducer
(src/editor/utils/with-history/index.js, later variant), returning the next
state together with `true` iff the JS code executed `return state;`
(i.e. the returned object is reference-identical to the input object). -/
def withHistoryRS {σ π : Type} [DecidableEq σ] (reducer : σ → Action π → σ)
    (resetTypes : List String) (state : HState σ) (action : Action π) :
    HState σ × Bool :=
  let past := state.past
  let present := state.present
  let future := state.future
  if action.type = "UNDO" then
    -- if ( past[ past.length - 1 ] !== present ) — provisional edit pending
    if past.getLast? ≠ some present then
      (⟨past, past.getLastD present, present :: future⟩, false)
    -- if ( past.length < 2 ) return state
    else if past.length < 2 then
      (state, true)
    else
      -- past: past.slice(0, length-1); present: past[past.length - 2]
      (⟨past.dropLast, past.dropLast.getLastD present, present :: future⟩, false)
  else if action.type = "REDO" then
    match future with
    -- if ( ! future.length ) return state
    | [] => (state, true)
    -- past: [...past, future[0]]; present: future[0]; future: future.slice(1)
    | f :: fs => (⟨past ++ [f], f, fs⟩, false)
  else if action.type = "CREATE_UNDO_LEVEL" then
    -- if ( past[ past.length - 1 ] === present ) return state
    if past.getLast? = some present then
      (state, true)
    else
      (⟨past ++ [present], present, []⟩, false)
  else
    let nextPresent := reducer present action
    -- includes( options.resetTypes, action.type )
    if action.type ∈ resetTypes then
      (⟨[nextPresent], nextPresent, []⟩, false)
    -- if ( present === nextPresent ) return state
    else if present = nextPresent then
      (state, true)
    else
      (⟨past, nextPresent, future⟩, false)

/-- The merged-present reducer as a plain state transformer (the structural
component of `withHistoryRS`). -/
def withHistory {σ π : Type} [DecidableEq σ] (reducer : σ → Action π → σ)
    (resetTypes : List String) (state : HState σ) (action : Action π) :
    HState σ :=
  (withHistoryRS reducer resetTypes state action).1

/-- One dispatch of the buffered `withHistory` variant
(src/editor/utils/with-history/index.js, earlier variant). -/
def withHistoryBuffered {σ π : Type} [DecidableEq σ] (reducer : σ → Action π → σ)
    (resetTypes : List String) (state : BState σ) (action : Action π) :
    BState σ :=
  let past := state.past
  let present := state.present
  let buffer := state.buffer
  let future := state.future
  if action.type = "UNDO" then
    -- if ( present !== buffer ) — changes in buffer
    if present ≠ buffer then
      ⟨past.dropLast, present, present, buffer :: future⟩
    -- if ( ! past.length ) return state
    else if past.isEmpty then
      state
    else
      ⟨past.dropLast, past.getLastD present, past.getLastD present, present :: future⟩
  else if action.type = "REDO" then
    match future with
    | [] => state
    | f :: fs => ⟨past ++ [present], f, f, fs⟩
  else if action.type = "CREATE_UNDO_LEVEL" then
    if present = buffer then
      state
    else
      ⟨past ++ [present], buffer, buffer, []⟩
  else
    let nextBuffer := reducer buffer action
    if action.type ∈ resetTypes then
      ⟨[], nextBuffer, nextBuffer, []⟩
    else if buffer = nextBuffer then
      state
    else
      ⟨past, present, nextBuffer, future⟩

/-- States of the merged-present reducer reachable from its initial state by
dispatching any sequence of actions. -/
inductive Reachable {σ π : Type} [DecidableEq σ] (reducer : σ → Action π → σ)
    (resetTypes : List String) (initialPresent : σ) : HState σ → Prop
  | init : Reachable reducer resetTypes initialPresent (initialState initialPresent)
  | step (s : HState σ) (a : Action π) :
      Reachable reducer resetTypes initialPresent s →
      Reachable reducer resetTypes initialPresent (withHistory reducer resetTypes s a)

/-- Whether dispatching `a1` then `a2` returns an object reference-identical to
the original input state object.  In JS every branch either returns the input
object itself or a freshly allocated literal, reference-distinct from every
previously existing object, so the final object is the original one iff both
dispatches took a `return state;` branch. -/
def sameRefAfterTwo {σ π : Type} [DecidableEq σ] (reducer : σ → Action π → σ)
    (resetTypes : List String) (state : HState σ) (a1 a2 : Action π) : Bool :=
  (withHistoryRS reducer resetTypes state a1).2 &&
    (withHistoryRS reducer resetTypes
      (withHistoryRS reducer resetTypes state a1).1 a2).2

/-- Global application state, restricted to the slice the history selectors
read (`state.editor` holds the history state). -/
structure GlobalState (σ : Type) where
  editor : HState σ

/-- Selector `hasEditorUndo` (src/editor/store/selectors.js):
`return state.editor.past.length > 0;`. -/
def hasEditorUndo {σ : Type} (state : GlobalState σ) : Bool :=
  state.editor.past.length > 0

/-- Selector `hasEditorRedo` (src/editor/store/selectors.js):
`return state.editor.future.length > 0;`. -/
def hasEditorRedo {σ : Type} (state : GlobalState σ) : Bool :=
  state.editor.future.length > 0

/-- The counter base reducer used by the repository's own tests:
`(state = {count: 0}, {type}) => type === 'INCREMENT' ? {count: state.count+1} : state`.
Each increment allocates a fresh object, and along the test runs used below
all reached counts are distinct, so `Nat` values model the object references
faithfully. -/
def counter (s : Nat) (a : Action Unit) : Nat :=
  if a.type = "INCREMENT" then s + 1 else s

/-- A base reducer that never changes its input (always returns the same
reference), used for concrete counterexamples. -/
def idReducer (s : Nat) (_ : Action Unit) : Nat := s

/-- The dispatched `UNDO` action with trivial payload. -/
def undoA : Action Unit := ⟨"UNDO", ()⟩

/-- The dispatched `REDO` action with trivial payload. -/
def redoA : Action Unit := ⟨"REDO", ()⟩

/-- The dispatched `CREATE_UNDO_LEVEL` action with trivial payload. -/
def createA : Action Unit := ⟨"CREATE_UNDO_LEVEL", ()⟩

/-- The dispatched `INCREMENT` action of the test counter reducer. -/
def incA : Action Unit := ⟨"INCREMENT", ()⟩

/-- Dispatching a whole action sequence (oldest first) through the buffered
variant, starting from a given state. -/
def runBuffered {σ π : Type} [DecidableEq σ] (reducer : σ → Action π → σ)
    (resetTypes : List String) (s : BState σ) (as : List (Action π)) : BState σ :=
  as.foldl (withHistoryBuffered reducer resetTypes) s

/-- Dispatching a whole action sequence (oldest first) through the
merged-present variant, starting from a given state. -/
def runMerged {σ π : Type} [DecidableEq σ] (reducer : σ → Action π → σ)
    (resetTypes : List String) (s : HState σ) (as : List (Action π)) : HState σ :=
  as.foldl (withHistory reducer resetTypes) s

/-- The correspondence the spec asserts between the two variants (modelled
from the spec's words, to be compared against the two source embeddings):
the merged past is the buffered past with the buffered present appended, the
merged present is the buffered buffer, and the futures agree. -/
def corresponds {σ : Type} (b : BState σ) (m : HState σ) : Prop :=
  m.past = b.past ++ [b.present] ∧ m.present = b.buffer ∧ m.future = b.future

instance {σ : Type} [DecidableEq σ] (b : BState σ) (m : HState σ) :
    Decidable (corresponds b m) := by
  unfold corresponds
  infer_instance

/-- A nonempty list's `getLastD` is its actual last element, whatever the
fallback. -/
theorem getLast?_eq_getLastD {σ : Type} (l : List σ) (d : σ) (h : l ≠ []) :
    l.getLast? = some (l.getLastD d) := by
  rw [List.getLastD_eq_getLast? d l, List.getLast?_eq_getLast_of_ne_nil h]
  rfl

/-- Dispatching any action through the merged-present reducer preserves
non-emptiness of `past`. -/
theorem past_nonempty_preserved {σ π : Type} [DecidableEq σ]
    (r : σ → Action π → σ) (rT : List String) (s : HState σ) (a : Action π)
    (h : 1 ≤ s.past.length) : 1 ≤ (withHistory r rT s a).past.length := by
  obtain ⟨p, pr, fu⟩ := s
  by_cases hU : a.type = "UNDO"
  · by_cases hprov : p.getLast? ≠ some pr
    · simpa [withHistory, withHistoryRS, hU, hprov] using h
    · by_cases hlen : p.length < 2
      · simpa [withHistory, withHistoryRS, hU, hprov, hlen] using h
      · have hd : 1 ≤ p.dropLast.length := by
          rw [List.length_dropLast]
          omega
        simpa [withHistory, withHistoryRS, hU, hprov, hlen] using hd
  · by_cases hR : a.type = "REDO"
    · cases fu with
      | nil => simpa [withHistory, withHistoryRS, hU, hR] using h
      | cons f fs => simp [withHistory, withHistoryRS, hU, hR]
    · by_cases hC : a.type = "CREATE_UNDO_LEVEL"
      · by_cases hlast : p.getLast? = some pr
        · simpa [withHistory, withHistoryRS, hU, hR, hC, hlast] using h
        · simp [withHistory, withHistoryRS, hU, hR, hC, hlast]
      · by_cases hres : a.type ∈ rT
        · simp [withHistory, withHistoryRS, hU, hR, hC, hres]
        · by_cases hnoop : pr = r pr a
          · simpa [withHistory, withHistoryRS, hU, hR, hC, hres, ← hnoop] using h
          · simpa [withHistory, withHistoryRS, hU, hR, hC, hres, hnoop] using h

/-- C1 (counterexample): the round-trip claim is false as stated.  At
`{past: [x], present: x, future: [y]}` (no provisional edit) the `UNDO` is a
no-op but the `REDO` moves forward, so the pair does not even restore a
structurally equal state; and at `{past: [x, y], present: y, future: []}`
the `UNDO` already returns a freshly allocated object (`return state;` is
not taken), so the final state cannot be the exact same object as the input,
only a structurally equal copy. -/
theorem undo_redo_not_ref_identical :
    ((([0] : List Nat).getLast? = some 0) ∧
      withHistory idReducer [] (withHistory idReducer [] ⟨[0], 0, [1]⟩ undoA) redoA ≠
        (⟨[0], 0, [1]⟩ : HState Nat)) ∧
    ((([0, 1] : List Nat).getLast? = some 1) ∧
      sameRefAfterTwo idReducer [] ⟨[0, 1], 1, []⟩ undoA redoA = false) := by
  decide

/-- C1 (amended): provided no provisional edit is pending and `past` has at
least two elements, dispatching `UNDO` then `REDO` yields a state whose
`past`, `present` and `future` are equal (element-wise reference-equal) to
those of the state before the pair; the resulting HistoryState object is a
fresh copy, not the identical object (the `UNDO` already allocates a new
object). -/
theorem undo_redo_roundtrip_structural {σ π : Type} [DecidableEq σ]
    (r : σ → Action π → σ) (rT : List String) (s : HState σ) (a1 a2 : Action π)
    (h1 : a1.type = "UNDO") (h2 : a2.type = "REDO")
    (hnp : s.past.getLast? = some s.present) (hlen : 2 ≤ s.past.length) :
    withHistory r rT (withHistory r rT s a1) a2 = s ∧
    (withHistoryRS r rT s a1).2 = false := by
  obtain ⟨p, pr, fu⟩ := s
  have hlt : ¬ p.length < 2 := Nat.not_lt.mpr hlen
  have happ : p.dropLast ++ [pr] = p := List.dropLast_append_getLast? pr hnp
  constructor
  · simp [withHistory, withHistoryRS, h1, h2, hnp, hlt, happ]
  · simp [withHistoryRS, h1, hnp, hlt]

/-- C1 (witness): the amended round-trip at `{past: [0, 1], present: 1,
future: []}` with the counter reducer. -/
theorem undo_redo_roundtrip_structural_witness :
    (([0, 1] : List Nat).getLast? = some 1 ∧ 2 ≤ ([0, 1] : List Nat).length) ∧
    (withHistory counter [] (withHistory counter [] ⟨[0, 1], 1, []⟩ undoA) redoA =
        (⟨[0, 1], 1, []⟩ : HState Nat) ∧
      (withHistoryRS counter [] ⟨[0, 1], 1, []⟩ undoA).2 = false) :=
  ⟨⟨by decide, by decide⟩,
    undo_redo_roundtrip_structural counter [] ⟨[0, 1], 1, []⟩ undoA redoA rfl rfl
      (by decide) (by decide)⟩

/-- C2: the two variants are claimed functionally equivalent under the
correspondence `corresponds`, but the buffered variant's undo-of-a-buffered-
edit branch executes `past.slice(0, past.length - 1)`, silently discarding
the newest committed checkpoint (the merged variant leaves `past` unchanged
there, and the spec's own `UNDO` row states `past` is unchanged).  With the
repository's counter test reducer, after `INCREMENT`, `CREATE_UNDO_LEVEL`,
`INCREMENT` the correspondence still holds; one further `UNDO` drops the
`{count: 0}` checkpoint from the buffered past and breaks it. -/
theorem buffered_merged_divergence :
    corresponds (runBuffered counter [] (initialBState 0) [incA, createA, incA])
      (runMerged counter [] (initialState 0) [incA, createA, incA]) ∧
    runBuffered counter [] (initialBState 0) [incA, createA, incA, undoA] =
      (⟨[], 1, 1, [2]⟩ : BState Nat) ∧
    runMerged counter [] (initialState 0) [incA, createA, incA, undoA] =
      (⟨[0, 1], 1, [2]⟩ : HState Nat) ∧
    ¬ corresponds (runBuffered counter [] (initialBState 0) [incA, createA, incA, undoA])
      (runMerged counter [] (initialState 0) [incA, createA, incA, undoA]) := by
  decide

/-- C3 (counterexample): an action whose type is in `resetTypes` does not
reset unconditionally when that type is one of the control types — the
`switch` handles control actions before the reset check is ever reached.
With `resetTypes = ["UNDO"]`, dispatching `UNDO` at `{past: [0, 1],
present: 1, future: []}` performs an undo, not a reset. -/
theorem reset_type_control_action_counterexample :
    ("UNDO" ∈ ["UNDO"]) ∧
    withHistory idReducer ["UNDO"] ⟨[0, 1], 1, []⟩ undoA ≠
      (⟨[idReducer 1 undoA], idReducer 1 undoA, []⟩ : HState Nat) := by
  decide

/-- C3 (amended): for every action whose type is a member of
`options.resetTypes` and is none of `UNDO`, `REDO`, `CREATE_UNDO_LEVEL`, the
merged-present reducer unconditionally returns
`{past: [nextPresent], present: nextPresent, future: []}` with
`nextPresent = baseReducer(present, action)` — for every prior state, even
when `nextPresent` equals the old `present`. -/
theorem reset_clears_history {σ π : Type} [DecidableEq σ]
    (r : σ → Action π → σ) (rT : List String) (s : HState σ) (a : Action π)
    (h1 : a.type ≠ "UNDO") (h2 : a.type ≠ "REDO")
    (h3 : a.type ≠ "CREATE_UNDO_LEVEL") (h4 : a.type ∈ rT) :
    withHistory r rT s a = ⟨[r s.present a], r s.present a, []⟩ := by
  simp [withHistory, withHistoryRS, h1, h2, h3, h4]

/-- C3 (witness): a `RESET_HISTORY` reset at `{past: [0, 1], present: 1,
future: []}` with the counter reducer (whose result is unchanged here). -/
theorem reset_clears_history_witness :
    ("RESET_HISTORY" ∈ ["RESET_HISTORY"]) ∧
    withHistory counter ["RESET_HISTORY"] ⟨[0, 1], 1, []⟩ ⟨"RESET_HISTORY", ()⟩ =
      (⟨[counter 1 ⟨"RESET_HISTORY", ()⟩], counter 1 ⟨"RESET_HISTORY", ()⟩, []⟩ : HState Nat) :=
  ⟨by decide,
    reset_clears_history counter ["RESET_HISTORY"] ⟨[0, 1], 1, []⟩ ⟨"RESET_HISTORY", ()⟩
      (by decide) (by decide) (by decide) (by decide)⟩

/-- C4: when `present` differs by reference from the last element of `past`
(an uncommitted provisional edit), `UNDO` restores `present` to that last
`past` element, prepends the previous `present` onto `future`, and leaves
`past` unchanged. -/
theorem undo_with_provisional_edit {σ π : Type} [DecidableEq σ]
    (r : σ → Action π → σ) (rT : List String) (s : HState σ) (a : Action π)
    (ha : a.type = "UNDO") (l : σ) (h1 : s.past.getLast? = some l)
    (h2 : l ≠ s.present) :
    withHistory r rT s a = ⟨s.past, l, s.present :: s.future⟩ := by
  have hne : s.past.getLast? ≠ some s.present := by
    rw [h1]
    intro hc
    exact h2 (Option.some.inj hc)
  simp [withHistory, withHistoryRS, ha, hne, h1, h2]

/-- C4 (witness): undoing the provisional edit at `{past: [0], present: 1,
future: []}`. -/
theorem undo_with_provisional_edit_witness :
    (([0] : List Nat).getLast? = some 0 ∧ (0 : Nat) ≠ 1) ∧
    withHistory counter [] ⟨[0], 1, []⟩ undoA = (⟨[0], 0, [1]⟩ : HState Nat) :=
  ⟨⟨by decide, by decide⟩,
    undo_with_provisional_edit counter [] ⟨[0], 1, []⟩ undoA rfl 0 (by decide) (by decide)⟩

/-- C5 (counterexample): the selector-layer answer to has-undo is not
`past.length > 1`: `hasEditorUndo` is implemented as
`state.editor.past.length > 0`, so on a state whose editor history has
`past = [x]` it returns `true` although `past.length > 1` fails. -/
theorem hasEditorUndo_length_counterexample :
    hasEditorUndo ⟨(⟨[0], 0, []⟩ : HState Nat)⟩ = true ∧
    ¬ ((⟨(⟨[0], 0, []⟩ : HState Nat)⟩ : GlobalState Nat).editor.past.length > 1) := by
  decide

/-- C5 (amended): for every global application state, `hasEditorUndo`
returns `true` iff `state.editor.past.length > 0` (not `> 1`), and
`hasEditorRedo` returns `true` iff `state.editor.future.length > 0`. -/
theorem selector_history_lengths {σ : Type} (s : GlobalState σ) :
    (hasEditorUndo s = true ↔ 0 < s.editor.past.length) ∧
    (hasEditorRedo s = true ↔ 0 < s.editor.future.length) := by
  simp [hasEditorUndo, hasEditorRedo]

/-- C6: `CREATE_UNDO_LEVEL` is idempotent — dispatching it twice in a row
yields a state reference-equal to dispatching it once (the second dispatch
executes `return state;` on the first dispatch's result), and when `present`
is already reference-equal to the last element of `past` the reducer returns
the exact same input state object. -/
theorem create_undo_level_idempotent {σ π : Type} [DecidableEq σ]
    (r : σ → Action π → σ) (rT : List String) (s : HState σ) (a : Action π)
    (ha : a.type = "CREATE_UNDO_LEVEL") :
    withHistoryRS r rT (withHistory r rT s a) a = (withHistory r rT s a, true) ∧
    (s.past.getLast? = some s.present → withHistoryRS r rT s a = (s, true)) := by
  constructor
  · by_cases h : s.past.getLast? = some s.present
    · simp [withHistory, withHistoryRS, ha, h]
    · simp [withHistory, withHistoryRS, ha, h, List.getLast?_concat]
  · intro h
    simp [withHistoryRS, ha, h]

/-- C6 (witness): idempotence after committing the provisional edit at
`{past: [0], present: 1, future: []}`, and the no-op at `{past: [0],
present: 0, future: []}`. -/
theorem create_undo_level_idempotent_witness :
    (withHistoryRS counter [] (withHistory counter [] ⟨[0], 1, []⟩ createA) createA =
      (withHistory counter [] ⟨[0], 1, []⟩ createA, true)) ∧
    (withHistoryRS counter [] ⟨[0], 0, []⟩ createA = ((⟨[0], 0, []⟩ : HState Nat), true)) :=
  ⟨(create_undo_level_idempotent counter [] ⟨[0], 1, []⟩ createA rfl).1,
    (create_undo_level_idempotent counter [] ⟨[0], 0, []⟩ createA rfl).2 (by decide)⟩

/-- C7: no-op edit stability — for any action that is none of the three
control types and not a reset type, if the base reducer returns its input
`present` reference-unchanged, the wrapped reducer returns the exact same
input HistoryState object (the `return state;` branch, flag `true`). -/
theorem noop_edit_stability {σ π : Type} [DecidableEq σ]
    (r : σ → Action π → σ) (rT : List String) (s : HState σ) (a : Action π)
    (h1 : a.type ≠ "UNDO") (h2 : a.type ≠ "REDO")
    (h3 : a.type ≠ "CREATE_UNDO_LEVEL") (h4 : a.type ∉ rT)
    (h5 : r s.present a = s.present) :
    withHistoryRS r rT s a = (s, true) := by
  simp [withHistoryRS, h1, h2, h3, h4, h5]

/-- C7 (witness): a `NOOP` action on the counter reducer at `{past: [5],
present: 5, future: []}` returns the identical state object. -/
theorem noop_edit_stability_witness :
    counter 5 ⟨"NOOP", ()⟩ = 5 ∧
    withHistoryRS counter [] ⟨[5], 5, []⟩ ⟨"NOOP", ()⟩ = ((⟨[5], 5, []⟩ : HState Nat), true) :=
  ⟨by decide,
    noop_edit_stability counter [] ⟨[5], 5, []⟩ ⟨"NOOP", ()⟩
      (by decide) (by decide) (by decide) (by decide) (by decide)⟩

/-- C8: undo and redo at the history boundary are no-ops, not errors —
`UNDO` when `past` has fewer than two elements and `present` is
reference-equal to the last element of `past` returns the identical input
object, and `REDO` with an empty `future` returns the identical input
object. -/
theorem boundary_undo_redo_noop {σ π : Type} [DecidableEq σ]
    (r : σ → Action π → σ) (rT : List String) (s : HState σ) :
    (∀ a : Action π, a.type = "UNDO" → s.past.getLast? = some s.present →
      s.past.length < 2 → withHistoryRS r rT s a = (s, true)) ∧
    (∀ a : Action π, a.type = "REDO" → s.future = [] →
      withHistoryRS r rT s a = (s, true)) := by
  constructor
  · intro a ha hlast hlen
    simp [withHistoryRS, ha, hlast, hlen]
  · intro a ha hfut
    simp [withHistoryRS, ha, hfut]

/-- C8 (witness): both boundary no-ops at `{past: [0], present: 0,
future: []}`. -/
theorem boundary_undo_redo_noop_witness :
    withHistoryRS counter [] ⟨[0], 0, []⟩ undoA = ((⟨[0], 0, []⟩ : HState Nat), true) ∧
    withHistoryRS counter [] ⟨[0], 0, []⟩ redoA = ((⟨[0], 0, []⟩ : HState Nat), true) :=
  ⟨(boundary_undo_redo_noop counter [] ⟨[0], 0, []⟩).1 undoA rfl (by decide) (by decide),
    (boundary_undo_redo_noop counter [] ⟨[0], 0, []⟩).2 redoA rfl (by decide)⟩

/-- C9: every state of the merged-present reducer reachable from the initial
state by any sequence of dispatched actions has a nonempty `past`. -/
theorem reachable_past_nonempty {σ π : Type} [DecidableEq σ]
    (r : σ → Action π → σ) (rT : List String) (i : σ) (s : HState σ)
    (h : Reachable r rT i s) : 1 ≤ s.past.length := by
  induction h with
  | init => simp [initialState]
  | step s a _ ih => exact past_nonempty_preserved r rT s a ih

/-- C9 (witness): the invariant at the state reached by one `INCREMENT` from
the counter reducer's initial state. -/
theorem reachable_past_nonempty_witness :
    1 ≤ (withHistory counter [] (initialState 0) incA).past.length :=
  reachable_past_nonempty counter [] 0 _
    (Reachable.step (initialState 0) incA Reachable.init)

/-- C10 (counterexample): an action whose type is in `resetTypes` need not
clear the provisional-edit marker when that type is a control type — with
`resetTypes = ["REDO"]` and an empty `future`, dispatching `REDO` at
`{past: [0], present: 1, future: []}` is a no-op and the provisional edit
remains (`present` still differs from the last element of `past`). -/
theorem clear_provisional_counterexample :
    ("REDO" ∈ ["REDO"]) ∧
    ¬ ((withHistory idReducer ["REDO"] ⟨[0], 1, []⟩ redoA).past.getLast? =
        some (withHistory idReducer ["REDO"] ⟨[0], 1, []⟩ redoA).present) := by
  decide

/-- C10 (amended): for every history state with nonempty `past` (the data
model invariant), dispatching `UNDO`, `CREATE_UNDO_LEVEL`, or any
non-control action whose type is in `options.resetTypes` yields a state in
which `present` is reference-equal to the last element of `past`;
dispatching `REDO` yields the same whenever `future` is non-empty. -/
theorem committing_actions_clear_provisional {σ π : Type} [DecidableEq σ]
    (r : σ → Action π → σ) (rT : List String) (s : HState σ) (hne : s.past ≠ []) :
    (∀ a : Action π, a.type = "UNDO" →
      (withHistory r rT s a).past.getLast? = some (withHistory r rT s a).present) ∧
    (∀ a : Action π, a.type = "CREATE_UNDO_LEVEL" →
      (withHistory r rT s a).past.getLast? = some (withHistory r rT s a).present) ∧
    (∀ a : Action π, a.type ≠ "UNDO" → a.type ≠ "REDO" → a.type ≠ "CREATE_UNDO_LEVEL" →
      a.type ∈ rT →
      (withHistory r rT s a).past.getLast? = some (withHistory r rT s a).present) ∧
    (∀ a : Action π, a.type = "REDO" → s.future ≠ [] →
      (withHistory r rT s a).past.getLast? = some (withHistory r rT s a).present) := by
  obtain ⟨p, pr, fu⟩ := s
  simp only at hne
  refine ⟨?_, ?_, ?_, ?_⟩
  · intro a ha
    by_cases hprov : p.getLast? ≠ some pr
    · simpa [withHistory, withHistoryRS, ha, hprov] using getLast?_eq_getLastD p pr hne
    · rw [Decidable.not_not] at hprov
      by_cases hlen : p.length < 2
      · simp [withHistory, withHistoryRS, ha, hprov, hlen]
      · have hd : p.dropLast ≠ [] := by
          intro hc
          have := congrArg List.length hc
          rw [List.length_dropLast] at this
          simp at this
          omega
        simpa [withHistory, withHistoryRS, ha, hprov, hlen] using
          getLast?_eq_getLastD p.dropLast pr hd
  · intro a ha
    by_cases hlast : p.getLast? = some pr
    · simp [withHistory, withHistoryRS, ha, hlast]
    · simp [withHistory, withHistoryRS, ha, hlast, List.getLast?_concat]
  · intro a h1 h2 h3 h4
    simp [withHistory, withHistoryRS, h1, h2, h3, h4]
  · intro a ha hfut
    cases fu with
    | nil => simp at hfut
    | cons f fs => simp [withHistory, withHistoryRS, ha, List.getLast?_concat]

/-- C10 (witness): `UNDO` at `{past: [0], present: 1, future: []}` commits
the provisional marker (`present` becomes the last `past` element). -/
theorem committing_actions_clear_provisional_witness :
    (([0] : List Nat) ≠ []) ∧
    (withHistory counter [] ⟨[0], 1, []⟩ undoA).past.getLast? =
      some (withHistory counter [] ⟨[0], 1, []⟩ undoA).present :=
  ⟨by decide,
    (committing_actions_clear_provisional counter [] ⟨[0], 1, []⟩ (by decide)).1 undoA rfl⟩

end Gutenberg
